import Mathlib

/-!
Verification of the PEDIA-workflow preprocessing orchestrator
(src/preprocess.py) by a shallow embedding in Lean 4.

The script is a sequential batch pipeline: acquire submission json files,
parse and filter them, build Case aggregates, run a batch
reference-transcript correction, optionally checkpoint, phenomize each
case through an external service, optionally checkpoint, and export each
case in a legacy format.  External collaborators (the json loader, the
Case constructor, the mutalyzer batch correction, the phenomizer service,
the checkpoint deserializer, the directory listing) are modelled as
fields of an explicit environment record; observable side effects are
recorded in an event trace.
-/

namespace Preprocess

/-- Parsed command line arguments, mirroring parse_arguments in
src/preprocess.py.  The argparse defaults are: single absent, output
the empty string, pickle absent, entry the string "pheno". -/
structure Args where
  single : Option String
  output : String
  pickle : Option String
  entry : String
deriving Repr, DecidableEq

/-- The argparse defaults from parse_arguments. -/
def Args.default : Args :=
  { single := none, output := "", pickle := none, entry := "pheno" }

/-- The configuration options read by the script, mirroring the string
keyed sections accessed in src/preprocess.py: general.download,
general.dump_intermediate, aws.download_location,
preprocess.corrected_location, preprocess.exclude_normal_variants and
conversion.output_path. -/
structure ConfigData where
  general_download : Bool
  general_dump_intermediate : Bool
  aws_download_location : String
  preprocess_corrected_location : String
  preprocess_exclude_normal_variants : Bool
  conversion_output_path : String
deriving Repr, DecidableEq

/-- A parsed submission record (lib.model.json NewJson): a file identity
plus the result of the structural check method, a pass flag with a
reason, as used by create_jsons via j.check()[0]. -/
structure NewJson where
  ident : String
  check : Bool × String
deriving Repr, DecidableEq

/-- The working Case aggregate (lib.model.case Case): an identity, its
variant descriptors, and the phenotype data attached by phenomization. -/
structure Case where
  ident : String
  variants : List String
  pheno : List String
deriving Repr, DecidableEq

/-- Observable side effects of a run, in order of occurrence. -/
inductive Event where
  | downloadS3
  | listDir (path : String)
  | parseFile (path : String) (corrected : String)
  | mkCase (ident : String)
  | correctTranscripts (idents : List String)
  | pickleDump (name : String)
  | pickleLoad (path : String)
  | phenomizerInit
  | phenomizeCall (ident : String)
  | omimInit
  | exportRecord (ident : String) (dest : String)
deriving Repr, DecidableEq

/-- Whether an event is a checkpoint write (a pickle.dump call). -/
def Event.isPickleDump : Event → Bool
  | .pickleDump _ => true
  | _ => false

/-- The identity recorded by a case construction event, if any. -/
def Event.mkCaseIdent : Event → Option String
  | .mkCase i => some i
  | _ => none

/-- Whether an event is the batch reference-transcript correction call. -/
def Event.isCorrectTranscripts : Event → Bool
  | .correctTranscripts _ => true
  | _ => false

/-- Whether an event is a legacy record export write. -/
def Event.isExportRecord : Event → Bool
  | .exportRecord _ _ => true
  | _ => false

/-- Whether an event is a directory listing. -/
def Event.isListDir : Event → Bool
  | .listDir _ => true
  | _ => false

/-- Whether an event is a submission file parse. -/
def Event.isParseFile : Event → Bool
  | .parseFile _ _ => true
  | _ => false

/-- Whether an event is a Case construction. -/
def Event.isMkCase : Event → Bool
  | .mkCase _ => true
  | _ => false

/-- The (identity, destination) pairs of the export writes in a trace. -/
def exportsOf (tr : List Event) : List (String × String) :=
  tr.filterMap (fun e =>
    match e with
    | .exportRecord i d => some (i, d)
    | _ => none)

/-- The external collaborators of the orchestrator: directory listing,
json loading, Case construction, the mutalyzer batch correction, the
phenomizer service call (which may fail), and checkpoint
deserialization. -/
structure Env where
  listDirNames : String → List String
  fromFile : String → String → NewJson
  mkCase : NewJson → Bool → Case
  correctTranscripts : List Case → List Case
  phenomizeCase : Case → Except String Case
  loadPickle : String → List Case

/-- Python truthiness of an optional string argument: None and the empty
string are falsy, any other string is truthy. -/
def strOptTruthy : Option String → Bool
  | none => false
  | some s => !s.isEmpty

/-- Whether the character list (a reversed name prefix) contains a
character other than a dot; os.path.splitext attaches no extension to a
name consisting only of leading dots. -/
def hasNonDot (cs : List Char) : Bool := cs.any (fun c => c ≠ '.')

/-- Helper for splitextExt: scan the reversed character list for the
last dot, accumulating the extension characters. -/
def extRevAux (acc : List Char) : List Char → String
  | [] => ""
  | '.' :: rest => if hasNonDot rest then String.mk ('.' :: acc) else ""
  | c :: rest => extRevAux (c :: acc) rest

/-- The extension component of os.path.splitext for a bare file name:
everything from the last dot on, provided some earlier character is not
a dot. -/
def splitextExt (s : String) : String := extRevAux [] s.data.reverse

/-- json_from_directory from src/preprocess.py: optionally sync the
remote store, list the cases subdirectory of the download location,
keep names with a .json extension, join them to paths, and pair them
with the corrected-files directory from configuration. -/
def json_from_directory (env : Env) (config_data : ConfigData) :
    (List String × String) × List Event :=
  let dlEvents := if config_data.general_download then [Event.downloadS3] else []
  let unprocessed_jsons := config_data.aws_download_location ++ "/cases"
  let json_files :=
    ((env.listDirNames unprocessed_jsons).filter
      (fun x => splitextExt x = ".json")).map
      (fun x => unprocessed_jsons ++ "/" ++ x)
  let corrected := config_data.preprocess_corrected_location
  ((json_files, corrected), dlEvents ++ [Event.listDir unprocessed_jsons])

/-- yield_jsons from src/preprocess.py: load each file path into a
NewJson, consulting the corrected directory. -/
def yield_jsons (env : Env) (json_files : List String) (corrected : String) :
    List NewJson × List Event :=
  (json_files.map (fun f => env.fromFile f corrected),
   json_files.map (fun f => Event.parseFile f corrected))

/-- The source acquisition step of create_jsons in src/preprocess.py:
the single file (with an empty corrected directory) when the single
argument is truthy, else the directory scan. -/
def acquire (env : Env) (args : Args) (config_data : ConfigData) :
    (List String × String) × List Event :=
  if strOptTruthy args.single
  then (([args.single.getD ""], ""), ([] : List Event))
  else json_from_directory env config_data

/-- The submissions loaded by create_jsons before filtering; its length
is the reported unfiltered count. -/
def loaded_jsons (env : Env) (args : Args) (config_data : ConfigData) :
    List NewJson :=
  (yield_jsons env (acquire env args config_data).1.1
    (acquire env args config_data).1.2).1

/-- create_jsons from src/preprocess.py: take the single file if the
single argument is truthy (with an empty corrected directory), else the
directory scan; load all files; report the unfiltered count; keep the
submissions whose structural check passes and report their count.
Returns (filtered submissions, unfiltered count, filtered count,
events). -/
def create_jsons (env : Env) (args : Args) (config_data : ConfigData) :
    List NewJson × Nat × Nat × List Event :=
  let acquired := acquire env args config_data
  let json_files := acquired.1.1
  let corrected := acquired.1.2
  let loaded := yield_jsons env json_files corrected
  let new_json_objs := loaded.1
  let unfiltered := new_json_objs.length
  let filtered_new := new_json_objs.filter (fun j => j.check.1)
  (filtered_new, unfiltered, filtered_new.length, acquired.2 ++ loaded.2)

/-- create_cases from src/preprocess.py: build one Case per accepted
submission (with the error fixer collaborator and the
exclude_normal_variants policy), run the single batch
reference-transcript correction over the whole collection, then dump
the case_cleaned.p checkpoint when dump_intermediate is set. -/
def create_cases (env : Env) (config_data : ConfigData)
    (jsons : List NewJson) : List Case × List Event :=
  let case_objs := jsons.map
    (fun j => env.mkCase j config_data.preprocess_exclude_normal_variants)
  let mkEvents := case_objs.map (fun c => Event.mkCase c.ident)
  let corrected_objs := env.correctTranscripts case_objs
  let dumpEvents :=
    if config_data.general_dump_intermediate
    then [Event.pickleDump "case_cleaned.p"] else []
  (corrected_objs,
   mkEvents ++ [Event.correctTranscripts (case_objs.map Case.ident)]
     ++ dumpEvents)

/-- yield_phenomized from src/preprocess.py: call the phenomizer on each
case in sequence, mutating it in place; a failed call propagates at once
and aborts the loop. -/
def yield_phenomized (phen : Case → Except String Case) :
    List Case → Except String (List Case) × List Event
  | [] => (Except.ok [], [])
  | c :: cs =>
    match phen c with
    | Except.error e => (Except.error e, [Event.phenomizeCall c.ident])
    | Except.ok c2 =>
      let rest := yield_phenomized phen cs
      (rest.1.map (fun cs2 => c2 :: cs2),
       Event.phenomizeCall c.ident :: rest.2)

/-- phenomize from src/preprocess.py: construct the phenomizer service,
run the phenomization loop, and only after the whole loop has succeeded
dump the case_phenomized.p checkpoint when dump_intermediate is set. -/
def phenomize (config_data : ConfigData) (env : Env) (cases : List Case) :
    Except String (List Case) × List Event :=
  let looped := yield_phenomized env.phenomizeCase cases
  match looped.1 with
  | Except.error e => (Except.error e, Event.phenomizerInit :: looped.2)
  | Except.ok cs =>
    (Except.ok cs,
     Event.phenomizerInit :: looped.2 ++
       (if config_data.general_dump_intermediate
        then [Event.pickleDump "case_phenomized.p"] else []))

/-- convert_to_old_format from src/preprocess.py: the destination is the
output argument when truthy, else conversion.output_path; construct the
OMIM collaborator; write one legacy record per case. -/
def convert_to_old_format (args : Args) (config_data : ConfigData)
    (cases : List Case) : List Event :=
  let destination :=
    if args.output = "" then config_data.conversion_output_path
    else args.output
  Event.omimInit :: cases.map (fun c => Event.exportRecord c.ident destination)

/-- The first half of main in src/preprocess.py: when the pickle
argument is falsy run create_jsons then create_cases, otherwise load the
checkpoint.  Returns the case collection at the BUILT state together
with the events so far. -/
def built (env : Env) (config_data : ConfigData) (args : Args) :
    List Case × List Event :=
  if strOptTruthy args.pickle
  then (env.loadPickle (args.pickle.getD ""),
        [Event.pickleLoad (args.pickle.getD "")])
  else
    let js := create_jsons env args config_data
    let bc := create_cases env config_data js.1
    (bc.1, js.2.2.2 ++ bc.2)

/-- main from src/preprocess.py: reach the BUILT state, run phenomize
exactly when the entry argument is the string "pheno", then export.
Returns the outcome together with the event trace up to the point of
success or failure. -/
def main (env : Env) (config_data : ConfigData) (args : Args) :
    Except String Unit × List Event :=
  let start := built env config_data args
  if args.entry = "pheno" then
    let ph := phenomize config_data env start.1
    match ph.1 with
    | Except.error e => (Except.error e, start.2 ++ ph.2)
    | Except.ok cs =>
      (Except.ok (),
       start.2 ++ ph.2 ++ convert_to_old_format args config_data cs)
  else
    (Except.ok (),
     start.2 ++ convert_to_old_format args config_data start.1)

/-- Modelled from the spec: the checkpoint serialization (Python pickle
of the case collection, together with the Case data model of
lib.model.case) is outside src/preprocess.py.  The spec describes it as
a canonical, opaque, self-contained snapshot format with the round-trip
contract load(save(collection)) == collection.  It is modelled here as a
token stream; a token is a count or a string field. -/
inductive PTok where
  | nat (n : Nat)
  | str (s : String)
deriving Repr, DecidableEq

/-- Modelled from the spec: serialize a list of string fields with a
length prefix. -/
def dumpStrList (xs : List String) : List PTok :=
  PTok.nat xs.length :: xs.map PTok.str

/-- Modelled from the spec: read back a known number of string fields,
returning them and the remaining stream. -/
def takeStrs : Nat → List PTok → Option (List String × List PTok)
  | 0, toks => some ([], toks)
  | n + 1, PTok.str s :: toks =>
    (takeStrs n toks).map (fun p => (s :: p.1, p.2))
  | _ + 1, _ => none

/-- Modelled from the spec: serialize one Case. -/
def dumpCase (c : Case) : List PTok :=
  PTok.str c.ident :: (dumpStrList c.variants ++ dumpStrList c.pheno)

/-- Modelled from the spec: deserialize one Case from the front of the
stream. -/
def loadCaseToks : List PTok → Option (Case × List PTok)
  | PTok.str i :: PTok.nat nv :: toks =>
    match takeStrs nv toks with
    | some (vs, PTok.nat np :: toks2) =>
      match takeStrs np toks2 with
      | some (ps, toks3) =>
        some ({ ident := i, variants := vs, pheno := ps }, toks3)
      | none => none
    | _ => none
  | _ => none

/-- Modelled from the spec: deserialize a known number of Cases. -/
def loadCasesToks : Nat → List PTok → Option (List Case × List PTok)
  | 0, toks => some ([], toks)
  | n + 1, toks =>
    match loadCaseToks toks with
    | some (c, rest) =>
      match loadCasesToks n rest with
      | some (cs, rest2) => some (c :: cs, rest2)
      | none => none
    | none => none

/-- Modelled from the spec: save serializes the full collection with a
leading count, as pickle.dump does for the whole case list. -/
def saveCases (cases : List Case) : List PTok :=
  PTok.nat cases.length :: cases.flatMap dumpCase

/-- Modelled from the spec: load deserializes a snapshot verbatim,
failing on a structurally incompatible stream, as pickle.load does. -/
def loadCases (toks : List PTok) : Option (List Case) :=
  match toks with
  | PTok.nat n :: rest =>
    match loadCasesToks n rest with
    | some (cs, []) => some cs
    | _ => none
  | _ => none

/-- A concrete environment for witness evaluation: the cases directory
holds three entries of which two are json files and one of those fails
the structural check; the phenomizer service fails on the case with
identity "B"; a checkpoint deserializes to three cases A, B, C. -/
def envW : Env :=
  { listDirNames := fun _ => ["a.json", "b.txt", "c.json"]
  , fromFile := fun p c =>
      { ident := p ++ "|" ++ c, check := (p != "/dl/cases/c.json", "ok") }
  , mkCase := fun j _ => { ident := j.ident, variants := ["v1"], pheno := [] }
  , correctTranscripts := fun cs => cs
  , phenomizeCase := fun c =>
      if c.ident = "B" then Except.error "service failure"
      else Except.ok { c with pheno := ["HP:1"] }
  , loadPickle := fun _ =>
      [{ ident := "A", variants := [], pheno := [] },
       { ident := "B", variants := [], pheno := [] },
       { ident := "C", variants := [], pheno := [] }] }

/-- envW with a phenomizer service that always succeeds. -/
def envOkW : Env :=
  { envW with phenomizeCase := fun c => Except.ok { c with pheno := ["HP:1"] } }

/-- A concrete configuration for witness evaluation, with download and
checkpoint dumping enabled. -/
def cfgW : ConfigData :=
  { general_download := true
  , general_dump_intermediate := true
  , aws_download_location := "/dl"
  , preprocess_corrected_location := "/corr"
  , preprocess_exclude_normal_variants := true
  , conversion_output_path := "/out" }

/-- Concrete arguments selecting a single submission file. -/
def argsSingleW : Args :=
  { single := some "/one.json", output := "", pickle := none,
    entry := "pheno" }

/-- Concrete arguments resuming from a checkpoint at entry "pheno". -/
def argsResumeW : Args :=
  { single := none, output := "", pickle := some "ck.p",
    entry := "pheno" }

/-- The phenomized form of the checkpoint collection of envOkW. -/
def csPhenomizedW : List Case :=
  [{ ident := "A", variants := [], pheno := ["HP:1"] },
   { ident := "B", variants := [], pheno := ["HP:1"] },
   { ident := "C", variants := [], pheno := ["HP:1"] }]

theorem takeStrs_append (xs : List String) (rest : List PTok) :
    takeStrs xs.length (xs.map PTok.str ++ rest) = some (xs, rest) := by
  induction xs with
  | nil => simp [takeStrs]
  | cons x xs ih => simp [takeStrs, ih]

theorem loadCaseToks_append (c : Case) (rest : List PTok) :
    loadCaseToks (dumpCase c ++ rest) = some (c, rest) := by
  obtain ⟨i, vs, ps⟩ := c
  simp [dumpCase, dumpStrList, loadCaseToks, List.append_assoc,
    takeStrs_append]

theorem loadCasesToks_append (cs : List Case) (rest : List PTok) :
    loadCasesToks cs.length (cs.flatMap dumpCase ++ rest) = some (cs, rest) := by
  induction cs with
  | nil => simp [loadCasesToks]
  | cons c cs ih =>
    simp [loadCasesToks, List.flatMap_cons, List.append_assoc,
      loadCaseToks_append, ih]

theorem loadCases_saveCases (cases : List Case) :
    loadCases (saveCases cases) = some cases := by
  have h := loadCasesToks_append cases []
  simp only [List.append_nil] at h
  simp [saveCases, loadCases, h]

/-- Events of create_jsons are only the remote sync, the directory
listing and the file parses. -/
theorem create_jsons_events_shape (env : Env) (args : Args)
    (cfg : ConfigData) :
    ∀ e ∈ (create_jsons env args cfg).2.2.2,
      e = Event.downloadS3 ∨ (∃ p, e = Event.listDir p) ∨
      ∃ p c, e = Event.parseFile p c := by
  intro e he
  by_cases hs : strOptTruthy args.single
  · simp only [create_jsons, acquire, hs, if_pos, yield_jsons,
      List.nil_append, List.mem_map] at he
    obtain ⟨f, _, rfl⟩ := he
    exact Or.inr (Or.inr ⟨_, _, rfl⟩)
  · simp only [create_jsons, acquire, hs, Bool.false_eq_true, if_false,
      yield_jsons, json_from_directory, List.mem_append,
      List.mem_map] at he
    rcases he with (he | he) | ⟨p, _, rfl⟩
    · split at he
      · simp only [List.mem_singleton] at he
        exact Or.inl he
      · simp at he
    · simp only [List.mem_singleton] at he
      exact Or.inr (Or.inl ⟨_, he⟩)
    · exact Or.inr (Or.inr ⟨_, _, rfl⟩)

/-- Events of create_cases are only case constructions, the batch
correction, and possibly the post-build checkpoint write. -/
theorem create_cases_events_shape (env : Env) (cfg : ConfigData)
    (jsons : List NewJson) :
    ∀ e ∈ (create_cases env cfg jsons).2,
      (∃ i, e = Event.mkCase i) ∨ (∃ ids, e = Event.correctTranscripts ids) ∨
      e = Event.pickleDump "case_cleaned.p" := by
  intro e he
  simp only [create_cases, List.mem_append, List.mem_map,
    List.mem_singleton] at he
  rcases he with (⟨c, _, rfl⟩ | rfl) | he
  · exact Or.inl ⟨_, rfl⟩
  · exact Or.inr (Or.inl ⟨_, rfl⟩)
  · split at he
    · simp only [List.mem_singleton] at he
      exact Or.inr (Or.inr he)
    · simp at he

/-- Events at the BUILT state are only the checkpoint load, acquisition,
parsing, case construction, batch correction, or the post-build
checkpoint write. -/
theorem built_events_shape (env : Env) (cfg : ConfigData) (args : Args) :
    ∀ e ∈ (built env cfg args).2,
      (∃ p, e = Event.pickleLoad p) ∨ e = Event.downloadS3 ∨
      (∃ p, e = Event.listDir p) ∨ (∃ p c, e = Event.parseFile p c) ∨
      (∃ i, e = Event.mkCase i) ∨ (∃ ids, e = Event.correctTranscripts ids) ∨
      e = Event.pickleDump "case_cleaned.p" := by
  intro e he
  by_cases hp : strOptTruthy args.pickle
  · simp [built, hp] at he
    exact Or.inl ⟨_, he⟩
  · simp only [built, hp, if_neg, Bool.false_eq_true, if_false] at he
    simp only [List.mem_append] at he
    rcases he with he | he
    · rcases create_jsons_events_shape env args cfg e he with h | h | h
      · exact Or.inr (Or.inl h)
      · exact Or.inr (Or.inr (Or.inl h))
      · exact Or.inr (Or.inr (Or.inr (Or.inl h)))
    · rcases create_cases_events_shape env cfg _ e he with h | h | h
      · exact Or.inr (Or.inr (Or.inr (Or.inr (Or.inl h))))
      · exact Or.inr (Or.inr (Or.inr (Or.inr (Or.inr (Or.inl h)))))
      · exact Or.inr (Or.inr (Or.inr (Or.inr (Or.inr (Or.inr h)))))

/-- Events of the export stage are only the OMIM construction and the
per-case record writes, all to the single computed destination. -/
theorem convert_events_shape (args : Args) (cfg : ConfigData)
    (cases : List Case) :
    ∀ e ∈ convert_to_old_format args cfg cases,
      e = Event.omimInit ∨
      ∃ i, e = Event.exportRecord i
        (if args.output = "" then cfg.conversion_output_path
         else args.output) := by
  intro e he
  simp [convert_to_old_format] at he
  rcases he with rfl | ⟨c, _, rfl⟩
  · exact Or.inl rfl
  · exact Or.inr ⟨_, rfl⟩

/-- Every event emitted by the phenomization loop is a phenomizer call. -/
theorem yield_phenomized_events (phen : Case → Except String Case)
    (cs : List Case) :
    ∀ e ∈ (yield_phenomized phen cs).2, ∃ i, e = Event.phenomizeCall i := by
  induction cs with
  | nil => simp [yield_phenomized]
  | cons c cs ih =>
    intro e he
    simp only [yield_phenomized] at he
    cases hp : phen c with
    | error err =>
      rw [hp] at he
      simp at he
      exact ⟨c.ident, he⟩
    | ok c2 =>
      rw [hp] at he
      simp at he
      rcases he with he | he
      · exact ⟨c.ident, he⟩
      · exact ih e he

/-- Events of phenomize are only the service construction, the per-case
calls, and possibly the post-phenomization checkpoint write. -/
theorem phenomize_events_shape (cfg : ConfigData) (env : Env)
    (cases : List Case) :
    ∀ e ∈ (phenomize cfg env cases).2,
      e = Event.phenomizerInit ∨ (∃ i, e = Event.phenomizeCall i) ∨
      e = Event.pickleDump "case_phenomized.p" := by
  intro e he
  simp only [phenomize] at he
  rcases hl : (yield_phenomized env.phenomizeCase cases).1 with e0 | cs
  · rw [hl] at he
    simp only [List.mem_cons] at he
    rcases he with rfl | he
    · exact Or.inl rfl
    · obtain ⟨i, rfl⟩ := yield_phenomized_events _ _ e he
      exact Or.inr (Or.inl ⟨_, rfl⟩)
  · rw [hl] at he
    simp only [List.cons_append, List.mem_cons, List.mem_append] at he
    rcases he with rfl | he | he
    · exact Or.inl rfl
    · obtain ⟨i, rfl⟩ := yield_phenomized_events _ _ e he
      exact Or.inr (Or.inl ⟨_, rfl⟩)
    · split at he
      · simp only [List.mem_singleton] at he
        exact Or.inr (Or.inr he)
      · simp at he

/-- When the phenomization stage fails, its events are only the service
construction and the per-case calls: in particular no checkpoint
write. -/
theorem phenomize_error_events_shape (cfg : ConfigData) (env : Env)
    (cases : List Case) (err : String)
    (h : (phenomize cfg env cases).1 = Except.error err) :
    ∀ e ∈ (phenomize cfg env cases).2,
      e = Event.phenomizerInit ∨ ∃ i, e = Event.phenomizeCall i := by
  intro e he
  simp only [phenomize] at he h
  rcases hl : (yield_phenomized env.phenomizeCase cases).1 with e0 | cs
  · rw [hl] at he
    simp only [List.mem_cons] at he
    rcases he with rfl | he
    · exact Or.inl rfl
    · obtain ⟨i, rfl⟩ := yield_phenomized_events _ _ e he
      exact Or.inr ⟨_, rfl⟩
  · rw [hl] at h
    simp at h

/-- The phenomizer service is always constructed when the phenomization
stage runs. -/
theorem phenomizerInit_mem_phenomize (cfg : ConfigData) (env : Env)
    (cases : List Case) :
    Event.phenomizerInit ∈ (phenomize cfg env cases).2 := by
  simp only [phenomize]
  rcases hl : (yield_phenomized env.phenomizeCase cases).1 with e0 | cs <;>
    simp

/-- A list with no checkpoint-write events is unchanged by filtering
them out. -/
theorem filter_not_dump_eq_self (l : List Event)
    (h : ∀ e ∈ l, e.isPickleDump = false) :
    l.filter (fun e => !e.isPickleDump) = l :=
  List.filter_eq_self.mpr (fun a ha => by rw [h a ha]; rfl)

/-- The failure result of phenomize does not depend on the
dump_intermediate flag, and disabling the flag removes exactly the
checkpoint-write event from its trace. -/
theorem phenomize_dump_false (cfg : ConfigData) (env : Env)
    (cases : List Case) :
    phenomize { cfg with general_dump_intermediate := false } env cases
      = ((phenomize cfg env cases).1,
         (phenomize cfg env cases).2.filter (fun e => !e.isPickleDump)) := by
  have hloop : ∀ e ∈ (yield_phenomized env.phenomizeCase cases).2,
      e.isPickleDump = false := by
    intro e he
    obtain ⟨i, rfl⟩ := yield_phenomized_events _ _ e he
    rfl
  have hfl := filter_not_dump_eq_self _ hloop
  have hinitcons : ∀ l : List Event,
      (Event.phenomizerInit :: l).filter (fun e => !e.isPickleDump)
        = Event.phenomizerInit :: l.filter (fun e => !e.isPickleDump) :=
    fun l => rfl
  have hdumpnil :
      ([Event.pickleDump "case_phenomized.p"] : List Event).filter
        (fun e => !e.isPickleDump) = [] := rfl
  simp only [phenomize]
  rcases hl : (yield_phenomized env.phenomizeCase cases).1 with e0 | cs
  · simp [hl, hinitcons, hfl]
  · by_cases hd : cfg.general_dump_intermediate = true
    · simp [hl, hd, List.filter_append, hinitcons, hfl, hdumpnil]
    · simp [hl, hd, List.filter_append, hinitcons, hfl]

/-- The case collection built by create_cases does not depend on the
dump_intermediate flag, and disabling the flag removes exactly the
post-build checkpoint-write event from its trace. -/
theorem create_cases_dump_false (env : Env) (cfg : ConfigData)
    (jsons : List NewJson) :
    create_cases env { cfg with general_dump_intermediate := false } jsons
      = ((create_cases env cfg jsons).1,
         (create_cases env cfg jsons).2.filter
           (fun e => !e.isPickleDump)) := by
  have hmk : ∀ e ∈ (jsons.map
      (fun j => env.mkCase j cfg.preprocess_exclude_normal_variants)).map
      (fun c => Event.mkCase c.ident), e.isPickleDump = false := by
    intro e he
    simp only [List.mem_map] at he
    obtain ⟨c, _, rfl⟩ := he
    rfl
  simp only [create_cases, List.filter_append,
    filter_not_dump_eq_self _ hmk]
  simp [List.filter_cons, Event.isPickleDump]

/-- create_jsons does not read the dump_intermediate flag. -/
theorem create_jsons_dump_false (env : Env) (args : Args)
    (cfg : ConfigData) :
    create_jsons env args { cfg with general_dump_intermediate := false }
      = create_jsons env args cfg := rfl

/-- A count of matches is zero on a list on which the predicate is
everywhere false. -/
theorem countP_zero_of_false (l : List Event) (p : Event → Bool)
    (h : ∀ e ∈ l, p e = false) : l.countP p = 0 :=
  List.countP_eq_zero.mpr (fun a ha => by simp [h a ha])

/-- With a truthy single argument, create_jsons processes exactly the
one given path with an empty corrected directory. -/
theorem create_jsons_single (env : Env) (args : Args) (cfg : ConfigData)
    (s : String) (h1 : args.single = some s) (h2 : s.isEmpty = false) :
    create_jsons env args cfg
      = ([env.fromFile s ""].filter (fun j => j.check.1),
         1, ([env.fromFile s ""].filter (fun j => j.check.1)).length,
         [Event.parseFile s ""]) := by
  have hs : strOptTruthy (some s) = true := by
    simp [strOptTruthy, h2]
  simp [create_jsons, acquire, h1, hs, yield_jsons]

/-- Claim C2: for every input file set, the filtered submission count
reported after the structural check is at most the unfiltered count,
the unfiltered count is the number of loaded submissions, the filtered
count is exactly the number of loaded submissions whose structural
check passes, and the returned collection is exactly the passing
submissions. -/
theorem claim2_filtered_count_correct (env : Env) (args : Args)
    (cfg : ConfigData) :
    (create_jsons env args cfg).2.2.1 ≤ (create_jsons env args cfg).2.1 ∧
    (create_jsons env args cfg).2.1 = (loaded_jsons env args cfg).length ∧
    (create_jsons env args cfg).2.2.1
      = (loaded_jsons env args cfg).countP (fun j => j.check.1) ∧
    (create_jsons env args cfg).1
      = (loaded_jsons env args cfg).filter (fun j => j.check.1) := by
  refine ⟨?_, rfl, ?_, rfl⟩
  · simp only [create_jsons]
    exact List.length_filter_le _ _
  · simp only [create_jsons, loaded_jsons]
    exact (List.countP_eq_length_filter _ _).symm

/-- Claim C5: with a single file argument, exactly one submission file
path is processed (the unfiltered count is one and the only event is
the one file parse), the directory scan is skipped, and the corrected
directory is passed as the empty string both to the loader and in the
recorded event. -/
theorem claim5_single_file_bypass (env : Env) (args : Args)
    (cfg : ConfigData) (s : String)
    (h1 : args.single = some s) (h2 : s.isEmpty = false) :
    (create_jsons env args cfg).2.2.2 = [Event.parseFile s ""] ∧
    (create_jsons env args cfg).2.1 = 1 ∧
    (create_jsons env args cfg).1
      = [env.fromFile s ""].filter (fun j => j.check.1) := by
  rw [create_jsons_single env args cfg s h1 h2]
  exact ⟨rfl, rfl, rfl⟩

/-- Claim C8: saving any non-empty case collection as a checkpoint and
loading it back yields the original collection. -/
theorem claim8_checkpoint_roundtrip (cases : List Case)
    (h : cases ≠ []) :
    loadCases (saveCases cases) = some cases :=
  loadCases_saveCases cases

/-- Witness for claim C8 at a concrete one-element collection. -/
theorem claim8_witness :
    ([⟨"c1", ["v1", "v2"], ["hp1"]⟩] : List Case) ≠ [] ∧
    loadCases (saveCases [⟨"c1", ["v1", "v2"], ["hp1"]⟩])
      = some [⟨"c1", ["v1", "v2"], ["hp1"]⟩] :=
  ⟨by decide, claim8_checkpoint_roundtrip _ (by decide)⟩

/-- Claim C9: every legacy record written by a run goes to the output
argument when it is non-empty, else to the configured conversion output
path. -/
theorem claim9_export_destination (env : Env) (cfg : ConfigData)
    (args : Args) (i d : String)
    (h : Event.exportRecord i d ∈ (main env cfg args).2) :
    d = if args.output = "" then cfg.conversion_output_path
        else args.output := by
  simp only [main] at h
  by_cases hent : args.entry = "pheno"
  · rw [if_pos hent] at h
    rcases hph : (phenomize cfg env (built env cfg args).1).1 with e0 | cs
    · rw [hph] at h
      simp only [List.mem_append] at h
      rcases h with h | h
      · rcases built_events_shape env cfg args _ h with
          ⟨p, hp⟩ | hp | ⟨p, hp⟩ | ⟨p, c, hp⟩ | ⟨i2, hp⟩ | ⟨ids, hp⟩ | hp <;>
          simp at hp
      · rcases phenomize_error_events_shape cfg env _ e0 hph _ h with
          hp | ⟨i2, hp⟩ <;> simp at hp
    · rw [hph] at h
      simp only [List.mem_append] at h
      rcases h with (h | h) | h
      · rcases built_events_shape env cfg args _ h with
          ⟨p, hp⟩ | hp | ⟨p, hp⟩ | ⟨p, c, hp⟩ | ⟨i2, hp⟩ | ⟨ids, hp⟩ | hp <;>
          simp at hp
      · rcases phenomize_events_shape cfg env _ _ h with
          hp | ⟨i2, hp⟩ | hp <;> simp at hp
      · rcases convert_events_shape args cfg cs _ h with hp | ⟨i2, hp⟩
        · simp at hp
        · rw [Event.exportRecord.injEq] at hp
          exact hp.2
  · rw [if_neg hent] at h
    simp only [List.mem_append] at h
    rcases h with h | h
    · rcases built_events_shape env cfg args _ h with
        ⟨p, hp⟩ | hp | ⟨p, hp⟩ | ⟨p, c, hp⟩ | ⟨i2, hp⟩ | ⟨ids, hp⟩ | hp <;>
        simp at hp
    · rcases convert_events_shape args cfg _ _ h with hp | ⟨i2, hp⟩
      · simp at hp
      · rw [Event.exportRecord.injEq] at hp
        exact hp.2

/-- Claim C10: with a truthy single argument the remote sync never
happens, even when the download flag is enabled. -/
theorem claim10_single_skips_download (env : Env) (cfg : ConfigData)
    (args : Args) (s : String)
    (h1 : args.single = some s) (h2 : s.isEmpty = false)
    (h3 : cfg.general_download = true) :
    Event.downloadS3 ∉ (main env cfg args).2 := by
  intro h
  have hcj : (create_jsons env args cfg).2.2.2 = [Event.parseFile s ""] := by
    rw [create_jsons_single env args cfg s h1 h2]
  have hbuilt : ∀ e ∈ (built env cfg args).2, e ≠ Event.downloadS3 := by
    intro e he
    by_cases hp : strOptTruthy args.pickle
    · simp only [built, hp, if_pos] at he
      simp only [List.mem_singleton] at he
      subst he; simp
    · simp only [built, hp, Bool.false_eq_true, if_false,
        List.mem_append] at he
      rcases he with he | he
      · rw [hcj] at he
        simp only [List.mem_singleton] at he
        subst he; simp
      · rcases create_cases_events_shape env cfg _ e he with
          ⟨i, hp2⟩ | ⟨ids, hp2⟩ | hp2 <;> subst hp2 <;> simp
  simp only [main] at h
  by_cases hent : args.entry = "pheno"
  · rw [if_pos hent] at h
    rcases hph : (phenomize cfg env (built env cfg args).1).1 with e0 | cs
    · rw [hph] at h
      simp only [List.mem_append] at h
      rcases h with h | h
      · exact hbuilt _ h rfl
      · rcases phenomize_error_events_shape cfg env _ e0 hph _ h with
          hp | ⟨i2, hp⟩ <;> simp at hp
    · rw [hph] at h
      simp only [List.mem_append] at h
      rcases h with (h | h) | h
      · exact hbuilt _ h rfl
      · rcases phenomize_events_shape cfg env _ _ h with
          hp | ⟨i2, hp⟩ | hp <;> simp at hp
      · rcases convert_events_shape args cfg cs _ h with hp | ⟨i2, hp⟩ <;>
          simp at hp
  · rw [if_neg hent] at h
    simp only [List.mem_append] at h
    rcases h with h | h
    · exact hbuilt _ h rfl
    · rcases convert_events_shape args cfg _ _ h with hp | ⟨i2, hp⟩ <;>
        simp at hp

/-- The BUILT-state trace contains no export writes. -/
theorem exportsOf_built (env : Env) (cfg : ConfigData) (args : Args) :
    exportsOf (built env cfg args).2 = [] := by
  rw [exportsOf, List.filterMap_eq_nil_iff]
  intro e he
  rcases built_events_shape env cfg args _ he with
    ⟨p, hp⟩ | hp | ⟨p, hp⟩ | ⟨p, c, hp⟩ | ⟨i2, hp⟩ | ⟨ids, hp⟩ | hp <;>
    subst hp <;> rfl

/-- The phenomization trace contains no export writes. -/
theorem exportsOf_phenomize (cfg : ConfigData) (env : Env)
    (cases : List Case) :
    exportsOf (phenomize cfg env cases).2 = [] := by
  rw [exportsOf, List.filterMap_eq_nil_iff]
  intro e he
  rcases phenomize_events_shape cfg env _ _ he with
    hp | ⟨i2, hp⟩ | hp <;> subst hp <;> rfl

/-- The export-stage trace writes exactly one record per case, all to
the computed destination. -/
theorem exportsOf_convert (args : Args) (cfg : ConfigData)
    (cases : List Case) :
    exportsOf (convert_to_old_format args cfg cases)
      = cases.map (fun c => (c.ident,
          if args.output = "" then cfg.conversion_output_path
          else args.output)) := by
  induction cases with
  | nil => rfl
  | cons c cs ih =>
    simp only [convert_to_old_format, exportsOf, List.map_cons] at ih ⊢
    simp only [List.filterMap_cons] at ih ⊢
    exact congrArg _ (by simpa [exportsOf] using ih)

/-- Claim C1: a failed run (the phenotype-matching service raised during
the phenomization loop) aborts before export: the trace has no
post-phenomization checkpoint write, no OMIM construction, and no export
record writes. -/
theorem claim1_phenomization_failure_aborts_run (env : Env)
    (cfg : ConfigData) (args : Args) (err : String)
    (h : (main env cfg args).1 = Except.error err) :
    Event.pickleDump "case_phenomized.p" ∉ (main env cfg args).2 ∧
    Event.omimInit ∉ (main env cfg args).2 ∧
    (main env cfg args).2.countP Event.isExportRecord = 0 := by
  by_cases hent : args.entry = "pheno"
  · rcases hph : (phenomize cfg env (built env cfg args).1).1 with e0 | cs
    · have hmain : main env cfg args
          = (Except.error e0,
             (built env cfg args).2
               ++ (phenomize cfg env (built env cfg args).1).2) := by
        simp only [main, if_pos hent, hph]
      rw [hmain]
      refine ⟨?_, ?_, ?_⟩
      · intro hm
        simp only [List.mem_append] at hm
        rcases hm with hm | hm
        · rcases built_events_shape env cfg args _ hm with
            ⟨p, hp⟩ | hp | ⟨p, hp⟩ | ⟨p, c, hp⟩ | ⟨i2, hp⟩ | ⟨ids, hp⟩ | hp <;>
            simp at hp
        · rcases phenomize_error_events_shape cfg env _ e0 hph _ hm with
            hp | ⟨i2, hp⟩ <;> simp at hp
      · intro hm
        simp only [List.mem_append] at hm
        rcases hm with hm | hm
        · rcases built_events_shape env cfg args _ hm with
            ⟨p, hp⟩ | hp | ⟨p, hp⟩ | ⟨p, c, hp⟩ | ⟨i2, hp⟩ | ⟨ids, hp⟩ | hp <;>
            simp at hp
        · rcases phenomize_error_events_shape cfg env _ e0 hph _ hm with
            hp | ⟨i2, hp⟩ <;> simp at hp
      · rw [List.countP_append]
        have hb : (built env cfg args).2.countP Event.isExportRecord = 0 := by
          refine countP_zero_of_false _ _ ?_
          intro e he
          rcases built_events_shape env cfg args _ he with
            ⟨p, hp⟩ | hp | ⟨p, hp⟩ | ⟨p, c, hp⟩ | ⟨i2, hp⟩ | ⟨ids, hp⟩ | hp <;>
            subst hp <;> rfl
        have hph2 : (phenomize cfg env
            (built env cfg args).1).2.countP Event.isExportRecord = 0 := by
          refine countP_zero_of_false _ _ ?_
          intro e he
          rcases phenomize_error_events_shape cfg env _ e0 hph _ he with
            hp | ⟨i2, hp⟩ <;> subst hp <;> rfl
        rw [hb, hph2]
    · have hmain : (main env cfg args).1 = Except.ok () := by
        simp only [main, if_pos hent, hph]
      rw [hmain] at h
      exact absurd h (by simp)
  · have hmain : (main env cfg args).1 = Except.ok () := by
      simp only [main, if_neg hent]
    rw [hmain] at h
    exact absurd h (by simp)

/-- Claim C4: the phenomization stage runs (the phenomizer service is
constructed) exactly when the entry argument is the string "pheno";
for any other entry value the run succeeds and exports exactly the
BUILT-state collection, whether it came from a checkpoint or was
freshly built. -/
theorem claim4_entry_point_gates_phenomization (env : Env)
    (cfg : ConfigData) (args : Args) :
    (Event.phenomizerInit ∈ (main env cfg args).2
      ↔ args.entry = "pheno") ∧
    (args.entry = "pheno" ∨
      ((main env cfg args).1 = Except.ok () ∧
       exportsOf (main env cfg args).2
         = (built env cfg args).1.map
             (fun c => (c.ident,
               if args.output = "" then cfg.conversion_output_path
               else args.output)))) := by
  by_cases hent : args.entry = "pheno"
  · refine ⟨⟨fun _ => hent, fun _ => ?_⟩, Or.inl hent⟩
    rcases hph : (phenomize cfg env (built env cfg args).1).1 with e0 | cs
    · have hmain : (main env cfg args).2
          = (built env cfg args).2
            ++ (phenomize cfg env (built env cfg args).1).2 := by
        simp only [main, if_pos hent, hph]
      rw [hmain]
      exact List.mem_append_right _ (phenomizerInit_mem_phenomize cfg env _)
    · have hmain : (main env cfg args).2
          = (built env cfg args).2
            ++ (phenomize cfg env (built env cfg args).1).2
            ++ convert_to_old_format args cfg cs := by
        simp only [main, if_pos hent, hph]
      rw [hmain]
      exact List.mem_append_left _
        (List.mem_append_right _ (phenomizerInit_mem_phenomize cfg env _))
  · have hmain : main env cfg args
        = (Except.ok (),
           (built env cfg args).2
             ++ convert_to_old_format args cfg (built env cfg args).1) := by
      simp only [main, if_neg hent]
    rw [hmain]
    constructor
    · simp only [List.mem_append]
      constructor
      · intro hm
        rcases hm with hm | hm
        · rcases built_events_shape env cfg args _ hm with
            ⟨p, hp⟩ | hp | ⟨p, hp⟩ | ⟨p, c, hp⟩ | ⟨i2, hp⟩ | ⟨ids, hp⟩ | hp <;>
            simp at hp
        · rcases convert_events_shape args cfg _ _ hm with hp | ⟨i2, hp⟩ <;>
            simp at hp
      · intro hm
        exact absurd hm hent
    · refine Or.inr ⟨rfl, ?_⟩
      simp only [exportsOf] at *
      rw [List.filterMap_append]
      have h1 := exportsOf_built env cfg args
      have h2 := exportsOf_convert args cfg (built env cfg args).1
      simp only [exportsOf] at h1 h2
      rw [h1, h2, List.nil_append]

/-- The phenomization trace contains no acquisition, scan, parse or
build events. -/
theorem phenomize_no_scan (cfg : ConfigData) (env : Env)
    (cases : List Case) :
    (phenomize cfg env cases).2.countP Event.isListDir = 0 ∧
    (phenomize cfg env cases).2.countP Event.isParseFile = 0 ∧
    (phenomize cfg env cases).2.countP Event.isMkCase = 0 ∧
    Event.downloadS3 ∉ (phenomize cfg env cases).2 := by
  refine ⟨countP_zero_of_false _ _ ?_, countP_zero_of_false _ _ ?_,
    countP_zero_of_false _ _ ?_, ?_⟩
  · intro e he
    rcases phenomize_events_shape cfg env _ _ he with
      hp | ⟨i2, hp⟩ | hp <;> subst hp <;> rfl
  · intro e he
    rcases phenomize_events_shape cfg env _ _ he with
      hp | ⟨i2, hp⟩ | hp <;> subst hp <;> rfl
  · intro e he
    rcases phenomize_events_shape cfg env _ _ he with
      hp | ⟨i2, hp⟩ | hp <;> subst hp <;> rfl
  · intro he
    rcases phenomize_events_shape cfg env _ _ he with
      hp | ⟨i2, hp⟩ | hp <;> simp at hp

/-- The export trace contains no acquisition, scan, parse or build
events. -/
theorem convert_no_scan (args : Args) (cfg : ConfigData)
    (cases : List Case) :
    (convert_to_old_format args cfg cases).countP Event.isListDir = 0 ∧
    (convert_to_old_format args cfg cases).countP Event.isParseFile = 0 ∧
    (convert_to_old_format args cfg cases).countP Event.isMkCase = 0 ∧
    Event.downloadS3 ∉ convert_to_old_format args cfg cases := by
  refine ⟨countP_zero_of_false _ _ ?_, countP_zero_of_false _ _ ?_,
    countP_zero_of_false _ _ ?_, ?_⟩
  · intro e he
    rcases convert_events_shape args cfg _ _ he with hp | ⟨i2, hp⟩ <;>
      subst hp <;> rfl
  · intro e he
    rcases convert_events_shape args cfg _ _ he with hp | ⟨i2, hp⟩ <;>
      subst hp <;> rfl
  · intro e he
    rcases convert_events_shape args cfg _ _ he with hp | ⟨i2, hp⟩ <;>
      subst hp <;> rfl
  · intro he
    rcases convert_events_shape args cfg _ _ he with hp | ⟨i2, hp⟩ <;>
      simp at hp

/-- Claim C3: resuming from a checkpoint with entry point "pheno" does
no remote sync, no directory listing, no submission parsing and no case
building; the run succeeds and exports exactly the phenomized form of
the deserialized checkpoint collection. -/
theorem claim3_checkpoint_resume_no_scan (env : Env) (cfg : ConfigData)
    (args : Args) (p : String) (cs2 : List Case)
    (h1 : args.pickle = some p) (h2 : p.isEmpty = false)
    (h3 : args.entry = "pheno")
    (h4 : (yield_phenomized env.phenomizeCase (env.loadPickle p)).1
            = Except.ok cs2) :
    (main env cfg args).1 = Except.ok () ∧
    Event.downloadS3 ∉ (main env cfg args).2 ∧
    (main env cfg args).2.countP Event.isListDir = 0 ∧
    (main env cfg args).2.countP Event.isParseFile = 0 ∧
    (main env cfg args).2.countP Event.isMkCase = 0 ∧
    exportsOf (main env cfg args).2
      = cs2.map (fun c => (c.ident,
          if args.output = "" then cfg.conversion_output_path
          else args.output)) := by
  have hpk : strOptTruthy args.pickle = true := by
    rw [h1]; simp [strOptTruthy, h2]
  have hps : strOptTruthy (some p) = true := by
    simp [strOptTruthy, h2]
  have hbuilt : built env cfg args
      = (env.loadPickle p, [Event.pickleLoad p]) := by
    simp [built, h1, hps]
  have hphok : (phenomize cfg env (env.loadPickle p)).1
      = Except.ok cs2 := by
    simp only [phenomize, h4]
  have hmain : main env cfg args
      = (Except.ok (),
         [Event.pickleLoad p]
           ++ (phenomize cfg env (env.loadPickle p)).2
           ++ convert_to_old_format args cfg cs2) := by
    simp only [main, if_pos h3, hbuilt, hphok]
  rw [hmain]
  obtain ⟨hl1, hl2, hl3, hl4⟩ := phenomize_no_scan cfg env (env.loadPickle p)
  obtain ⟨hc1, hc2, hc3, hc4⟩ := convert_no_scan args cfg cs2
  refine ⟨rfl, ?_, ?_, ?_, ?_, ?_⟩
  · simp only [List.mem_append, List.mem_singleton]
    rintro ((h | h) | h)
    · simp at h
    · exact hl4 h
    · exact hc4 h
  · simp only [List.countP_append, hl1, hc1]
    rfl
  · simp only [List.countP_append, hl2, hc2]
    rfl
  · simp only [List.countP_append, hl3, hc3]
    rfl
  · have h5 := exportsOf_phenomize cfg env (env.loadPickle p)
    have h6 := exportsOf_convert args cfg cs2
    simp only [exportsOf] at h5 h6 ⊢
    rw [List.filterMap_append, List.filterMap_append, h5, h6]
    rfl

/-- Splitting takeWhile and dropWhile at the first failing element. -/
theorem takeWhile_dropWhile_split {α : Type} (p : α → Bool) (A : List α)
    (b : α) (B : List α) (hA : ∀ a ∈ A, p a = true) (hb : p b = false) :
    (A ++ b :: B).takeWhile p = A ∧ (A ++ b :: B).dropWhile p = b :: B := by
  induction A with
  | nil => simp [List.takeWhile_cons, List.dropWhile_cons, hb]
  | cons a A ih =>
    have ha : p a = true := hA a (List.mem_cons_self a A)
    obtain ⟨h1, h2⟩ := ih (fun x hx => hA x (List.mem_cons_of_mem a hx))
    simp [List.takeWhile_cons, List.dropWhile_cons, ha, h1, h2]

/-- In a fresh run the trace splits as acquisition and parse events,
then all case constructions, then the single batch correction carrying
the identities of the whole constructed collection, then a remainder
containing no correction and no construction events. -/
theorem main_trace_fresh (env : Env) (cfg : ConfigData) (args : Args)
    (h : strOptTruthy args.pickle = false) :
    ∃ rest : List Event,
      (main env cfg args).2
        = ((create_jsons env args cfg).2.2.2
            ++ ((create_jsons env args cfg).1.map
                (fun j => env.mkCase j
                  cfg.preprocess_exclude_normal_variants)).map
              (fun c => Event.mkCase c.ident))
          ++ Event.correctTranscripts
              (((create_jsons env args cfg).1.map
                (fun j => env.mkCase j
                  cfg.preprocess_exclude_normal_variants)).map Case.ident)
            :: rest ∧
      ∀ e ∈ rest, e.isCorrectTranscripts = false
        ∧ Event.mkCaseIdent e = none := by
  have hbuilt : built env cfg args
      = ((create_cases env cfg (create_jsons env args cfg).1).1,
         (create_jsons env args cfg).2.2.2
           ++ (create_cases env cfg (create_jsons env args cfg).1).2) := by
    simp [built, h]
  obtain ⟨tail0, htail0, hfacts⟩ :
      ∃ tail0, (main env cfg args).2 = (built env cfg args).2 ++ tail0 ∧
        ∀ e ∈ tail0, e.isCorrectTranscripts = false
          ∧ Event.mkCaseIdent e = none := by
    by_cases hent : args.entry = "pheno"
    · rcases hph : (phenomize cfg env (built env cfg args).1).1 with e0 | cs
      · refine ⟨(phenomize cfg env (built env cfg args).1).2, ?_, ?_⟩
        · simp only [main, if_pos hent, hph]
        · intro e he
          rcases phenomize_events_shape cfg env _ _ he with
            hp | ⟨i, hp⟩ | hp <;> subst hp <;> exact ⟨rfl, rfl⟩
      · refine ⟨(phenomize cfg env (built env cfg args).1).2
            ++ convert_to_old_format args cfg cs, ?_, ?_⟩
        · simp only [main, if_pos hent, hph, List.append_assoc]
        · intro e he
          rcases List.mem_append.mp he with he | he
          · rcases phenomize_events_shape cfg env _ _ he with
              hp | ⟨i, hp⟩ | hp <;> subst hp <;> exact ⟨rfl, rfl⟩
          · rcases convert_events_shape args cfg _ _ he with
              hp | ⟨i, hp⟩ <;> subst hp <;> exact ⟨rfl, rfl⟩
    · refine ⟨convert_to_old_format args cfg (built env cfg args).1,
        ?_, ?_⟩
      · simp only [main, if_neg hent]
      · intro e he
        rcases convert_events_shape args cfg _ _ he with
          hp | ⟨i, hp⟩ <;> subst hp <;> exact ⟨rfl, rfl⟩
  refine ⟨(if cfg.general_dump_intermediate = true
      then [Event.pickleDump "case_cleaned.p"] else []) ++ tail0, ?_, ?_⟩
  · rw [htail0, hbuilt]
    simp only [create_cases, List.append_assoc, List.cons_append,
      List.singleton_append, List.nil_append]
  · intro e he
    rcases List.mem_append.mp he with he | he
    · split at he
      · simp only [List.mem_singleton] at he
        subst he
        exact ⟨rfl, rfl⟩
      · simp at he
    · exact hfacts e he

/-- Claim C6: in a fresh run the batch reference-transcript correction
happens exactly once; it happens after every case construction (the
identities it carries are exactly those of all cases constructed before
it, and none is constructed after), and before any checkpoint write and
before the phenomizer service is constructed. -/
theorem claim6_batch_correction_once (env : Env) (cfg : ConfigData)
    (args : Args) (h : strOptTruthy args.pickle = false) :
    (main env cfg args).2.countP Event.isCorrectTranscripts = 1 ∧
    ((main env cfg args).2.dropWhile
        (fun e => !e.isCorrectTranscripts)).head?
      = some (Event.correctTranscripts
          (((main env cfg args).2.takeWhile
              (fun e => !e.isCorrectTranscripts)).filterMap
            Event.mkCaseIdent)) ∧
    (((main env cfg args).2.dropWhile
        (fun e => !e.isCorrectTranscripts)).tail).filterMap
      Event.mkCaseIdent = [] ∧
    ((main env cfg args).2.takeWhile
        (fun e => !e.isCorrectTranscripts)).countP Event.isPickleDump = 0 ∧
    Event.phenomizerInit ∉ (main env cfg args).2.takeWhile
        (fun e => !e.isCorrectTranscripts) := by
  obtain ⟨rest, htr, hrest⟩ := main_trace_fresh env cfg args h
  have hA : ∀ e ∈ (create_jsons env args cfg).2.2.2
      ++ ((create_jsons env args cfg).1.map
          (fun j => env.mkCase j
            cfg.preprocess_exclude_normal_variants)).map
        (fun c => Event.mkCase c.ident),
      (!e.isCorrectTranscripts) = true ∧ e.isPickleDump = false
        ∧ e ≠ Event.phenomizerInit := by
    intro e he
    rcases List.mem_append.mp he with he | he
    · rcases create_jsons_events_shape env args cfg e he with
        hp | ⟨p2, hp⟩ | ⟨p2, c2, hp⟩ <;> subst hp <;>
        exact ⟨rfl, rfl, by simp⟩
    · simp only [List.mem_map] at he
      obtain ⟨c, _, rfl⟩ := he
      exact ⟨rfl, rfl, by simp⟩
  have hfm : ∀ l : List Case,
      (l.map (fun c => Event.mkCase c.ident)).filterMap
        Event.mkCaseIdent = l.map Case.ident := by
    intro l
    induction l with
    | nil => rfl
    | cons c t ih => simp [List.filterMap_cons, Event.mkCaseIdent, ih]
  obtain ⟨htake, hdrop⟩ := takeWhile_dropWhile_split
    (fun e => !e.isCorrectTranscripts)
    ((create_jsons env args cfg).2.2.2
      ++ ((create_jsons env args cfg).1.map
          (fun j => env.mkCase j
            cfg.preprocess_exclude_normal_variants)).map
        (fun c => Event.mkCase c.ident))
    (Event.correctTranscripts
      (((create_jsons env args cfg).1.map
        (fun j => env.mkCase j
          cfg.preprocess_exclude_normal_variants)).map Case.ident))
    rest (fun a ha => (hA a ha).1) (by rfl)
  rw [htr] at *
  refine ⟨?_, ?_, ?_, ?_, ?_⟩
  · rw [List.countP_append, List.countP_cons]
    have h0 : ((create_jsons env args cfg).2.2.2
        ++ ((create_jsons env args cfg).1.map
            (fun j => env.mkCase j
              cfg.preprocess_exclude_normal_variants)).map
          (fun c => Event.mkCase c.ident)).countP
        Event.isCorrectTranscripts = 0 :=
      countP_zero_of_false _ _ (fun e he => by
        have := (hA e he).1
        revert this
        cases e.isCorrectTranscripts <;> simp)
    have h1 : rest.countP Event.isCorrectTranscripts = 0 :=
      countP_zero_of_false _ _ (fun e he => (hrest e he).1)
    rw [h0, h1]
    rfl
  · rw [hdrop, htake]
    simp only [List.head?_cons, Option.some.injEq,
      Event.correctTranscripts.injEq]
    rw [List.filterMap_append, hfm]
    have h0 : (create_jsons env args cfg).2.2.2.filterMap
        Event.mkCaseIdent = [] := by
      rw [List.filterMap_eq_nil_iff]
      intro e he
      rcases create_jsons_events_shape env args cfg e he with
        hp | ⟨p2, hp⟩ | ⟨p2, c2, hp⟩ <;> subst hp <;> rfl
    rw [h0, List.nil_append]
  · rw [hdrop]
    simp only [List.tail_cons]
    rw [List.filterMap_eq_nil_iff]
    intro e he
    exact (hrest e he).2
  · rw [htake]
    exact countP_zero_of_false _ _ (fun e he => (hA e he).2.1)
  · rw [htake]
    intro hm
    exact (hA _ hm).2.2 rfl

/-- The BUILT-state result does not depend on the dump_intermediate
flag, and disabling the flag removes exactly the checkpoint-write
events from its trace. -/
theorem built_dump_false (env : Env) (cfg : ConfigData) (args : Args) :
    built env { cfg with general_dump_intermediate := false } args
      = ((built env cfg args).1,
         (built env cfg args).2.filter (fun e => !e.isPickleDump)) := by
  by_cases hp : strOptTruthy args.pickle
  · simp only [built, hp, if_pos]
    rfl
  · simp only [built, hp, Bool.false_eq_true, if_false]
    rw [create_jsons_dump_false, create_cases_dump_false]
    have hcj : (create_jsons env args cfg).2.2.2.filter
        (fun e => !e.isPickleDump) = (create_jsons env args cfg).2.2.2 :=
      filter_not_dump_eq_self _ (fun e he => by
        rcases create_jsons_events_shape env args cfg e he with
          hp2 | ⟨p2, hp2⟩ | ⟨p2, c2, hp2⟩ <;> subst hp2 <;> rfl)
    rw [List.filter_append, hcj]

/-- The outcome of a run does not depend on the dump_intermediate flag,
and disabling the flag removes exactly the checkpoint-write events from
the trace. -/
theorem main_dump_false (env : Env) (cfg : ConfigData) (args : Args) :
    main env { cfg with general_dump_intermediate := false } args
      = ((main env cfg args).1,
         (main env cfg args).2.filter (fun e => !e.isPickleDump)) := by
  have hb := built_dump_false env cfg args
  have hconvfil : ∀ cs : List Case,
      (convert_to_old_format args cfg cs).filter
        (fun e => !e.isPickleDump) = convert_to_old_format args cfg cs :=
    fun cs => filter_not_dump_eq_self _ (fun e he => by
      rcases convert_events_shape args cfg _ _ he with hp | ⟨i, hp⟩ <;>
        subst hp <;> rfl)
  have hcv : convert_to_old_format args
      { cfg with general_dump_intermediate := false }
      = convert_to_old_format args cfg := rfl
  by_cases hent : args.entry = "pheno"
  · rcases hph1 : (phenomize cfg env (built env cfg args).1).1 with e0 | cs
    · have hph1' : (phenomize
          { cfg with general_dump_intermediate := false } env
          (built env { cfg with general_dump_intermediate := false }
            args).1).1 = Except.error e0 := by
        simp only [hb, phenomize_dump_false, hph1]
      simp only [main, if_pos hent, hph1, hph1', hb,
        phenomize_dump_false, List.filter_append]
    · have hph1' : (phenomize
          { cfg with general_dump_intermediate := false } env
          (built env { cfg with general_dump_intermediate := false }
            args).1).1 = Except.ok cs := by
        simp only [hb, phenomize_dump_false, hph1]
      simp only [main, if_pos hent, hph1, hph1', hb,
        phenomize_dump_false, hcv, List.filter_append, hconvfil]
  · simp only [main, if_neg hent, hb, hcv, List.filter_append, hconvfil]

/-- Every checkpoint write in a run is to one of the two fixed
artifact names. -/
theorem main_dump_names (env : Env) (cfg : ConfigData) (args : Args) :
    ∀ e ∈ (main env cfg args).2, e.isPickleDump = true →
      e = Event.pickleDump "case_cleaned.p" ∨
      e = Event.pickleDump "case_phenomized.p" := by
  intro e he hdump
  by_cases hent : args.entry = "pheno"
  · simp only [main, if_pos hent] at he
    rcases hph : (phenomize cfg env (built env cfg args).1).1 with e0 | cs <;>
      rw [hph] at he
    · simp only [List.mem_append] at he
      rcases he with he | he
      · rcases built_events_shape env cfg args _ he with
          ⟨p, hp⟩ | hp | ⟨p, hp⟩ | ⟨p, c, hp⟩ | ⟨i2, hp⟩ | ⟨ids, hp⟩ | hp <;>
          subst hp <;> first
          | exact Or.inl rfl
          | exact Bool.noConfusion hdump
      · rcases phenomize_error_events_shape cfg env _ e0 hph _ he with
          hp | ⟨i2, hp⟩ <;> subst hp <;> exact Bool.noConfusion hdump
    · simp only [List.mem_append] at he
      rcases he with (he | he) | he
      · rcases built_events_shape env cfg args _ he with
          ⟨p, hp⟩ | hp | ⟨p, hp⟩ | ⟨p, c, hp⟩ | ⟨i2, hp⟩ | ⟨ids, hp⟩ | hp <;>
          subst hp <;> first
          | exact Or.inl rfl
          | exact Bool.noConfusion hdump
      · rcases phenomize_events_shape cfg env _ _ he with
          hp | ⟨i2, hp⟩ | hp <;> subst hp <;>
          first
          | exact Or.inr rfl
          | exact Bool.noConfusion hdump
      · rcases convert_events_shape args cfg cs _ he with hp | ⟨i2, hp⟩ <;>
          subst hp <;> exact Bool.noConfusion hdump
  · simp only [main, if_neg hent, List.mem_append] at he
    rcases he with he | he
    · rcases built_events_shape env cfg args _ he with
        ⟨p, hp⟩ | hp | ⟨p, hp⟩ | ⟨p, c, hp⟩ | ⟨i2, hp⟩ | ⟨ids, hp⟩ | hp <;>
        subst hp <;> first
        | exact Or.inl rfl
        | exact Bool.noConfusion hdump
    · rcases convert_events_shape args cfg _ _ he with hp | ⟨i2, hp⟩ <;>
        subst hp <;> exact Bool.noConfusion hdump

/-- Claim C7: checkpoint writes only ever target the two fixed artifact
names; with dump_intermediate disabled no checkpoint is written at
either stage; and disabling the flag changes nothing else: the outcome
is identical and the trace is identical apart from the removed
checkpoint writes. -/
theorem claim7_checkpoints_gated_by_dump_flag (env : Env)
    (cfg : ConfigData) (args : Args) :
    (main env cfg args).2.filter Event.isPickleDump
      ⊆ [Event.pickleDump "case_cleaned.p",
         Event.pickleDump "case_phenomized.p"] ∧
    (main env { cfg with general_dump_intermediate := false }
        args).2.countP Event.isPickleDump = 0 ∧
    (main env { cfg with general_dump_intermediate := false } args).1
      = (main env cfg args).1 ∧
    (main env { cfg with general_dump_intermediate := false } args).2
      = (main env cfg args).2.filter (fun e => !e.isPickleDump) := by
  have hmf := main_dump_false env cfg args
  refine ⟨?_, ?_, ?_, ?_⟩
  · intro e he
    rw [List.mem_filter] at he
    rcases main_dump_names env cfg args e he.1 he.2 with rfl | rfl <;> simp
  · rw [hmf]
    simp only [List.countP_eq_zero]
    intro e he
    rw [List.mem_filter] at he
    have := he.2
    revert this
    cases e.isPickleDump <;> simp
  · rw [hmf]
  · rw [hmf]

/-- Witness for claim C1: with the failing phenomizer environment and a
checkpoint resume the run fails on the second of three cases, and the
conclusions hold on that concrete run. -/
theorem claim1_witness :
    (main envW cfgW argsResumeW).1 = Except.error "service failure" ∧
    (Event.pickleDump "case_phenomized.p" ∉ (main envW cfgW argsResumeW).2 ∧
     Event.omimInit ∉ (main envW cfgW argsResumeW).2 ∧
     (main envW cfgW argsResumeW).2.countP Event.isExportRecord = 0) :=
  ⟨rfl, claim1_phenomization_failure_aborts_run envW cfgW argsResumeW
    "service failure" rfl⟩

/-- Witness for claim C3 on a concrete checkpoint resume that
phenomizes three cases. -/
theorem claim3_witness :
    argsResumeW.pickle = some "ck.p" ∧
    ("ck.p" : String).isEmpty = false ∧
    argsResumeW.entry = "pheno" ∧
    (yield_phenomized envOkW.phenomizeCase (envOkW.loadPickle "ck.p")).1
      = Except.ok csPhenomizedW ∧
    ((main envOkW cfgW argsResumeW).1 = Except.ok () ∧
     Event.downloadS3 ∉ (main envOkW cfgW argsResumeW).2 ∧
     (main envOkW cfgW argsResumeW).2.countP Event.isListDir = 0 ∧
     (main envOkW cfgW argsResumeW).2.countP Event.isParseFile = 0 ∧
     (main envOkW cfgW argsResumeW).2.countP Event.isMkCase = 0 ∧
     exportsOf (main envOkW cfgW argsResumeW).2
       = csPhenomizedW.map (fun c => (c.ident,
           if argsResumeW.output = "" then cfgW.conversion_output_path
           else argsResumeW.output))) :=
  ⟨rfl, rfl, rfl, rfl, claim3_checkpoint_resume_no_scan envOkW cfgW
    argsResumeW "ck.p" csPhenomizedW rfl rfl rfl rfl⟩

/-- Witness for claim C5 on a concrete single-file run. -/
theorem claim5_witness :
    argsSingleW.single = some "/one.json" ∧
    ("/one.json" : String).isEmpty = false ∧
    ((create_jsons envW argsSingleW cfgW).2.2.2
        = [Event.parseFile "/one.json" ""] ∧
     (create_jsons envW argsSingleW cfgW).2.1 = 1 ∧
     (create_jsons envW argsSingleW cfgW).1
       = [envW.fromFile "/one.json" ""].filter (fun j => j.check.1)) :=
  ⟨rfl, rfl, claim5_single_file_bypass envW argsSingleW cfgW
    "/one.json" rfl rfl⟩

/-- Witness for claim C6 on a concrete fresh run. -/
theorem claim6_witness :
    strOptTruthy Args.default.pickle = false ∧
    ((main envW cfgW Args.default).2.countP
        Event.isCorrectTranscripts = 1 ∧
     ((main envW cfgW Args.default).2.dropWhile
         (fun e => !e.isCorrectTranscripts)).head?
       = some (Event.correctTranscripts
           (((main envW cfgW Args.default).2.takeWhile
               (fun e => !e.isCorrectTranscripts)).filterMap
             Event.mkCaseIdent)) ∧
     (((main envW cfgW Args.default).2.dropWhile
         (fun e => !e.isCorrectTranscripts)).tail).filterMap
       Event.mkCaseIdent = [] ∧
     ((main envW cfgW Args.default).2.takeWhile
         (fun e => !e.isCorrectTranscripts)).countP
       Event.isPickleDump = 0 ∧
     Event.phenomizerInit ∉ (main envW cfgW Args.default).2.takeWhile
         (fun e => !e.isCorrectTranscripts)) :=
  ⟨rfl, claim6_batch_correction_once envW cfgW Args.default rfl⟩

/-- Witness for claim C9 on a concrete export write. -/
theorem claim9_witness :
    Event.exportRecord "/dl/cases/a.json|/corr" "/out"
      ∈ (main envOkW cfgW Args.default).2 ∧
    "/out" = (if Args.default.output = ""
              then cfgW.conversion_output_path else Args.default.output) :=
  ⟨by decide, claim9_export_destination envOkW cfgW Args.default
    "/dl/cases/a.json|/corr" "/out" (by decide)⟩

/-- Witness for claim C10 on a concrete single-file run with the
download flag enabled. -/
theorem claim10_witness :
    argsSingleW.single = some "/one.json" ∧
    ("/one.json" : String).isEmpty = false ∧
    cfgW.general_download = true ∧
    Event.downloadS3 ∉ (main envW cfgW argsSingleW).2 :=
  ⟨rfl, rfl, rfl, claim10_single_skips_download envW cfgW argsSingleW
    "/one.json" rfl rfl rfl⟩

end Preprocess
